import Mathlib

/-
Verification development for the v-flow video file-management tool.

The definitions below are a shallow embedding of the core logic of
`src/vflow/utils_date.py` and `src/vflow/actions.py`:

* strings are modelled as `List Char`; the regular expressions of the source
  are fixed-shape patterns and are embedded as the (provably equivalent)
  deterministic decompositions they denote, including `$` accepting one
  trailing newline and `.` not matching a newline;
* `\d` and `[A-Za-z]` are modelled as the ASCII digit/letter classes, and
  `str.lower`/`str.upper` as ASCII case mapping (the tool tokens and
  folder names are ASCII);
* Python `datetime.date` becomes the `PDate` structure with its
  lexicographic order, and `strftime` with `%Y-%m-%d` becomes zero-padded
  4-2-2 digit printing (platform-independent exactly for four-digit years,
  which is where the round-trip theorems are stated);
* the filesystem is modelled symlink-free: a directory is an association
  list from entry name to the result of `stat` (`Option Nat`, the file
  size, or `none` for an I/O error), and a whole tree is a partial map from resolved
  absolute paths (segment lists) to directory contents;
* the external copy-with-verify capability (spec §6) is modelled as always
  succeeding; copies are recorded as explicit effects.
-/

namespace VFlow

/-- A calendar date (year, month, day), modelling Python `datetime.date`. -/
structure PDate where
  y : Nat
  m : Nat
  d : Nat
deriving DecidableEq, Repr

/-- Python `date` comparison is lexicographic on (year, month, day). -/
def dateLeb (a b : PDate) : Bool :=
  decide (a.y < b.y) ||
    (decide (a.y = b.y) &&
      (decide (a.m < b.m) || (decide (a.m = b.m) && decide (a.d ≤ b.d))))

/-- Gregorian leap-year rule, as used by `datetime`. -/
def isLeapYear (y : Nat) : Bool :=
  (y % 4 = 0 && y % 100 ≠ 0) || y % 400 = 0

/-- Number of days in a month, as used by `datetime`. -/
def daysInMonth (y m : Nat) : Nat :=
  if m = 2 then (if isLeapYear y then 29 else 28)
  else if m = 4 || m = 6 || m = 9 || m = 11 then 30
  else 31

/-- Validity of (y, m, d) as a `datetime.date`: `strptime` with `%Y-%m-%d`
raises `ValueError` exactly when this is false (years 1–9999). -/
def isValidDate (y m d : Nat) : Bool :=
  1 ≤ y && y ≤ 9999 && 1 ≤ m && m ≤ 12 && 1 ≤ d && d ≤ daysInMonth y m

/-- The ASCII digit character for `k` (meaningful for `k < 10`). -/
def dChar (k : Nat) : Char := Char.ofNat (48 + k)

/-- Numeric value of an ASCII digit character. -/
def dVal (c : Char) : Nat := c.toNat - 48

/-- Embedding of `date.strftime` with `%Y-%m-%d`: zero-padded 4-digit year,
2-digit month and day (platform-independent for four-digit years). -/
def dateToIso (dt : PDate) : List Char :=
  [dChar (dt.y / 1000 % 10), dChar (dt.y / 100 % 10), dChar (dt.y / 10 % 10),
   dChar (dt.y % 10), '-', dChar (dt.m / 10 % 10), dChar (dt.m % 10), '-',
   dChar (dt.d / 10 % 10), dChar (dt.d % 10)]

/-- Shape test for the fixed-width regex fragment `\d{4}-\d{2}-\d{2}`. -/
def dateShape (l : List Char) : Bool :=
  match l with
  | [a, b, c, d, e, f, g, h, i, j] =>
    a.isDigit && b.isDigit && c.isDigit && d.isDigit && decide (e = '-') &&
    f.isDigit && g.isDigit && decide (h = '-') && i.isDigit && j.isDigit
  | _ => false

/-- Embedding of `datetime.strptime` with `%Y-%m-%d` on a regex group
of shape `\d{4}-\d{2}-\d{2}`: reads the digits and checks calendar
validity; `none` models the `ValueError` branch. -/
def parseDate10 (l : List Char) : Option PDate :=
  if dateShape l then
    match l with
    | a :: b :: c :: d :: _ :: f :: g :: _ :: i :: j :: _ =>
      let yy := 1000 * dVal a + 100 * dVal b + 10 * dVal c + dVal d
      let mm := 10 * dVal f + dVal g
      let dd := 10 * dVal i + dVal j
      if isValidDate yy mm dd then some ⟨yy, mm, dd⟩ else none
    | _ => none
  else none

/-- Helper for `labelOk`: remaining characters after at least one label
character has been consumed; a newline is accepted only as the final
character (regex `$`). -/
def labelTail : List Char → Bool
  | [] => true
  | c :: rest => if c = '\n' then rest.isEmpty else labelTail rest

/-- Test that a character list is matched by the anchored regex fragment
`(.+)$` (with `.` not matching newline and `$` also accepting a position
just before one trailing newline), as in `re.match` without `DOTALL`. -/
def labelOk : List Char → Bool
  | [] => false
  | c :: rest => !(decide (c = '\n')) && labelTail rest

/-- Shape of the regex `^(\d{4}-\d{2}-\d{2})_to_(\d{4}-\d{2}-\d{2})_(.+)$`
from `parse_shoot_date_range`. All groups left of the label are fixed
width, so the regex matches exactly when this decomposition does. -/
def rangeShape (s : List Char) : Bool :=
  dateShape (s.take 10) && decide ((s.drop 10).take 4 = ['_', 't', 'o', '_']) &&
    dateShape ((s.drop 14).take 10) && decide ((s.drop 24).take 1 = ['_']) &&
    labelOk (s.drop 25)

/-- Shape of the regex `^(\d{4}-\d{2}-\d{2})_(.+)$` from
`parse_shoot_date_range`. -/
def singleShape (s : List Char) : Bool :=
  dateShape (s.take 10) && decide ((s.drop 10).take 1 = ['_']) &&
    labelOk (s.drop 11)

/-- Second half of `parse_shoot_date_range`: the single-date pattern
`YYYY-MM-DD_ShootName`, reached when the range pattern does not match or
one of its dates fails `strptime`. -/
def trySingle (s : List Char) : Option (PDate × PDate) :=
  if singleShape s then
    match parseDate10 (s.take 10) with
    | some dt => some (dt, dt)
    | none => none
  else none

/-- Embedding of `parse_shoot_date_range` (utils_date.py): try the range
pattern first; if its shape matches but either `strptime` raises, fall
through to the single-date pattern; return `none` if nothing succeeds. -/
def parseShootDateRange (s : List Char) : Option (PDate × PDate) :=
  if rangeShape s then
    match parseDate10 (s.take 10), parseDate10 ((s.drop 14).take 10) with
    | some a, some b => some (a, b)
    | _, _ => trySingle s
  else trySingle s

/-- Embedding of `format_shoot_name` (utils_date.py): single-date form when
the two dates are equal, range form otherwise. -/
def formatShootName (startDate endDate : PDate) (nameSuffix : List Char) : List Char :=
  if startDate = endDate then
    dateToIso startDate ++ '_' :: nameSuffix
  else
    dateToIso startDate ++ '_' :: 't' :: 'o' :: '_' ::
      (dateToIso endDate ++ '_' :: nameSuffix)

/-- Embedding of `date_in_range` (utils_date.py): inclusive on both ends. -/
def dateInRange (checkDate startDate endDate : PDate) : Bool :=
  dateLeb startDate checkDate && dateLeb checkDate endDate

/-- ASCII letter class, modelling the regex class `[A-Za-z]`. -/
def isAsciiLetter (c : Char) : Bool :=
  (decide ('A' ≤ c) && decide (c ≤ 'Z')) || (decide ('a' ≤ c) && decide (c ≤ 'z'))

/-- Numeric value of a digit run, as computed by Python `int` on the
captured group (zero padding is absorbed). -/
def digitsToNat (l : List Char) : Nat :=
  l.foldl (fun a c => 10 * a + dVal c) 0

/-- Embedding of `_extract_number_from_filename` (actions.py):
`re.search` with `(\d+)` finds the first maximal digit run. -/
def extractNumber (s : List Char) : Option Nat :=
  match s.dropWhile (fun c => !c.isDigit) with
  | [] => none
  | r => some (digitsToNat (r.takeWhile Char.isDigit))

/-- Substring containment, modelling the Python `in` operator on strings
(the empty needle is contained in everything). -/
def containsSub (needle hay : List Char) : Bool :=
  match hay with
  | [] => needle.isEmpty
  | _ :: rest => List.isPrefixOf needle hay || containsSub needle rest

/-- Test that the tail of an anchored regex, after the final `(\d+)`
group, is accepted: end of string, or one trailing newline (`$`). -/
def endOk (r : List Char) : Bool :=
  decide (r = []) || decide (r = ['\n'])

/-- Embedding of `_parse_range_pattern` (actions.py). The two anchored
regexes `^([A-Za-z]*?)(\d+)-([A-Za-z]*?)(\d+)$` and
`^([A-Za-z]*?)(\d+)-(\d+)$` have forced group boundaries (a lazy letter
run followed by a digit run must stop exactly at the first digit, and the
greedy digit run at the first non-digit), so each is embedded as its
unique decomposition. Mirrors the fall-through of the source: if the first
regex matches but its prefix condition or `start <= end` fails, the
second regex is still tried. -/
def parseRangePattern (p : List Char) :
    Option (List Char) × Option Nat × Option Nat :=
  let s := p.map Char.toUpper
  let a := s.takeWhile isAsciiLetter
  let r1 := s.dropWhile isAsciiLetter
  let b := r1.takeWhile Char.isDigit
  let r2 := r1.dropWhile Char.isDigit
  match b, r2 with
  | _ :: _, '-' :: r3 =>
    let c := r3.takeWhile isAsciiLetter
    let r4 := r3.dropWhile isAsciiLetter
    let d := r4.takeWhile Char.isDigit
    let r5 := r4.dropWhile Char.isDigit
    let startNum := digitsToNat b
    let endNum := digitsToNat d
    if !d.isEmpty && endOk r5 &&
        ((a.isEmpty && c.isEmpty) || (!a.isEmpty && !c.isEmpty && decide (a = c))) &&
        decide (startNum ≤ endNum) then
      ((if a.isEmpty then none else some a), some startNum, some endNum)
    else
      -- second regex: everything after the dash must be digits
      let d2 := r3.takeWhile Char.isDigit
      let r6 := r3.dropWhile Char.isDigit
      let endNum2 := digitsToNat d2
      if !d2.isEmpty && endOk r6 && decide (startNum ≤ endNum2) then
        ((if a.isEmpty then none else some a), some startNum, some endNum2)
      else (none, none, none)
  | _, _ => (none, none, none)

/-- Embedding of `_matches_pattern` (actions.py): range check, then
numeric-equality-with-letters check, then case-insensitive substring
fallback. -/
def matchesPattern (p fname : List Char) : Bool :=
  let fnameLower := fname.map Char.toLower
  let pLower := p.map Char.toLower
  match parseRangePattern p with
  | (pfx, some startNum, some endNum) =>
    (match extractNumber fname with
     | none => false
     | some fileNum =>
       match pfx with
       | some pr =>
         if !containsSub (pr.map Char.toLower) fnameLower then false
         else decide (startNum ≤ fileNum) && decide (fileNum ≤ endNum)
       | none => decide (startNum ≤ fileNum) && decide (fileNum ≤ endNum))
  | _ =>
    match extractNumber p, extractNumber fname with
    | some pNum, some fileNum =>
      if pNum = fileNum then
        let pLetters := pLower.filter (fun c => !c.isDigit)
        if !pLetters.isEmpty then containsSub pLetters fnameLower
        else true
      else containsSub pLower fnameLower
    | _, _ => containsSub pLower fnameLower

example : parseRangePattern ("C3317-C3351".toList) =
    (some ("C".toList), some 3317, some 3351) := by decide

example : parseRangePattern ("3317-3351".toList) = (none, some 3317, some 3351) := by decide

example : parseRangePattern ("C3317-3351".toList) =
    (some ("C".toList), some 3317, some 3351) := by decide

example : parseRangePattern ("7".toList) = (none, none, none) := by decide

example : matchesPattern ("C3317-C3351".toList) ("C3320.mp4".toList) = true := by decide

example : matchesPattern ("C3317-C3351".toList) ("C3400.mp4".toList) = false := by decide

example : matchesPattern ("7".toList) ("007.MP4".toList) = true := by decide

example : matchesPattern ("XYZ".toList) ("abc_xyz_001.mov".toList) = true := by decide

/-- Contents of one directory: entry name together with the result of
`stat().st_size` on that entry (`none` models an I/O error raised by
`stat`; an absent name models `exists() == False`). -/
abbrev DirC := List (List Char × Option Nat)

/-- A media file found in the ingest source: its base name, the result of
statting it for its size, and its representative date (already extracted
by `_get_media_date`, which never fails). -/
structure MFile where
  name : List Char
  stat : Option Nat
  mdate : PDate
deriving DecidableEq, Repr

/-- First entry of a directory with the given name, modelling
`(dest_dir / name).exists()` plus `stat`. -/
def lookupEntry (nm : List Char) : DirC → Option (Option Nat)
  | [] => none
  | (n, st) :: rest => if n = nm then some st else lookupEntry nm rest

/-- Embedding of `_is_duplicate` (actions.py): the destination entry must
exist and both `stat` calls must succeed with equal sizes; any `stat`
failure is caught and yields `false`. -/
def isDuplicate (f : MFile) (dest : DirC) : Bool :=
  match lookupEntry f.name dest with
  | none => false
  | some destStat =>
    match f.stat, destStat with
    | some a, some b => decide (a = b)
    | _, _ => false

/-- An absolute filesystem path as a list of segments (no `.` or `..`). -/
abbrev PathA := List (List Char)

/-- Split a path string on `/`, dropping empty segments (pathlib keeps no
empty components). -/
def splitSegsAux : List Char → List Char → List (List Char)
  | [], cur => [cur.reverse]
  | '/' :: rest, cur => cur.reverse :: splitSegsAux rest []
  | c :: rest, cur => splitSegsAux rest (c :: cur)

/-- Segments of a relative or absolute path string. -/
def splitSegs (s : List Char) : List (List Char) :=
  (splitSegsAux s []).filter (fun seg => !seg.isEmpty)

/-- Normalisation performed by `Path.resolve()` on a symlink-free tree:
drop `.` segments and let `..` remove the previous segment (at the root,
`..` stays at the root). -/
def normSegs (segs : List (List Char)) : PathA :=
  segs.foldl (fun acc seg =>
    if seg = ".".toList then acc
    else if seg = "..".toList then acc.dropLast
    else acc ++ [seg]) []

/-- Embedding of `(root / name).resolve()` for an already-resolved `root`:
an absolute `name` replaces the root (pathlib `/` semantics), otherwise
the joined path is normalised. The filesystem is modelled symlink-free. -/
def resolvePath (root : PathA) (name : List Char) : PathA :=
  if name.head? = some '/' then normSegs (splitSegs name)
  else normSegs (root ++ splitSegs name)

/-- Discovery result for one shoot folder, modelling the per-name dict
built by `_find_existing_shoots`: its parsed date range and the two
presence flags. -/
structure ShootInfo where
  range : PDate × PDate
  inLaptop : Bool
  inArchive : Bool
deriving DecidableEq, Repr

/-- The environment of one ingest run: the two configured roots (already
resolved), the discovery result (`existing_shoots`, in dict iteration
order), and the directory contents at each resolved absolute path
(`none` models a path that does not exist). -/
structure Env where
  laptopRoot : PathA
  archiveRoot : PathA
  shoots : List (List Char × ShootInfo)
  dirAt : PathA → Option DirC

/-- Fixed archive subpath `archive_dest / "Video" / "RAW"` used by
`ingest_shoot`. -/
def archiveRawRoot (env : Env) : PathA :=
  env.archiveRoot ++ ["Video".toList, "RAW".toList]

/-- Embedding of `_find_matching_shoot` (actions.py): first existing shoot
whose date range contains the batch date range, in iteration order. -/
def findMatchingShoot (fileRange : PDate × PDate) :
    List (List Char × ShootInfo) → Option (List Char)
  | [] => none
  | (n, info) :: rest =>
    if dateLeb info.range.1 fileRange.1 && dateLeb fileRange.2 info.range.2 then
      some n
    else findMatchingShoot fileRange rest

/-- Auto-mode name resolution in `ingest_shoot`: reuse the name of a matching
shoot, else synthesize one with the fixed label `"Ingest"`. -/
def resolveAutoName (minD maxD : PDate)
    (shoots : List (List Char × ShootInfo)) : List Char :=
  match findMatchingShoot (minD, maxD) shoots with
  | some n => n
  | none => formatShootName minD maxD ("Ingest".toList)

/-- Lookup of a shoot name in the discovery dict. -/
def lookupShoot (nm : List Char) :
    List (List Char × ShootInfo) → Option ShootInfo
  | [] => none
  | (n, info) :: rest => if n = nm then some info else lookupShoot nm rest

/-- Name resolution and manual-mode validation of `ingest_shoot`
(actions.py lines 235-285): `none` models `typer.Exit` (the run aborts
with no side effect). -/
def resolveTarget (shoots : List (List Char × ShootInfo)) (minD maxD : PDate)
    (nameArg : List Char) (auto force : Bool) : Option (List Char) :=
  if auto then some (resolveAutoName minD maxD shoots)
  else if nameArg.isEmpty then none
  else
    match lookupShoot nameArg shoots with
    | some info =>
      if dateLeb info.range.1 minD && dateLeb maxD info.range.2 then some nameArg
      else if force then some nameArg else none
    | none =>
      match parseShootDateRange nameArg with
      | some (s, e) =>
        if dateLeb s minD && dateLeb maxD e then some nameArg
        else if force then some nameArg else none
      | none => if force then some nameArg else none

/-- Minimum of the batch dates (`min(file_dates)`), first file first. -/
def minDateOf (f0 : MFile) (rest : List MFile) : PDate :=
  rest.foldl (fun acc g => if dateLeb acc g.mdate then acc else g.mdate) f0.mdate

/-- Maximum of the batch dates (`max(file_dates)`), first file first. -/
def maxDateOf (f0 : MFile) (rest : List MFile) : PDate :=
  rest.foldl (fun acc g => if dateLeb g.mdate acc then acc else g.mdate) f0.mdate

/-- Number of batch files already duplicated in a destination directory
(`sum(1 for f in files_to_ingest if _is_duplicate(f, dir))`); a directory
that does not exist contributes zero. -/
def dupCount (files : List MFile) (dir : Option DirC) : Nat :=
  match dir with
  | some d => files.countP (fun f => isDuplicate f d)
  | none => 0

/-- Embedding of the pre-copy skip check of `ingest_shoot` (actions.py
lines 300-323): counts are computed only for destinations whose flag is
set and whose directory exists; the run is skipped when everything is in
both places, or (the `elif`) when everything is already in the laptop
ingest folder. -/
def preCheckSkip (inLap inArc : Bool) (dirL dirA : Option DirC)
    (files : List MFile) : Bool :=
  if inLap || inArc then
    let n := files.length
    let cntL := if inLap then dupCount files dirL else 0
    let cntA := if inArc then dupCount files dirA else 0
    (inLap && inArc && decide (cntL = n) && decide (cntA = n)) ||
      (inLap && decide (cntL = n))
  else false

/-- Filesystem mutations performed by an ingest run: directory creation
and file copies (the copy-with-verify capability, modelled as
succeeding). -/
inductive Effect
  | mkdirEff (p : PathA)
  | copyEff (fname : List Char) (dest : PathA)
deriving DecidableEq, Repr

/-- Terminal state of an ingest run, as in spec §4.6. -/
inductive Outcome
  | abortedRun
  | skippedRun
  | completedRun (copied skipped errors : Nat)
deriving DecidableEq, Repr

/-- Per-file copy loop of `ingest_shoot` (actions.py lines 388-437),
threading the live directory contents (a copy adds the entry for later
duplicate checks). Returns the copied count, the skipped-duplicate
count, and the copy effects in order. -/
def execLoop (lp ap : PathA) (copyToL copyToA : Bool) :
    List MFile → DirC → DirC → Nat × Nat × List Effect
  | [], _, _ => (0, 0, [])
  | f :: rest, dirL, dirA =>
    let lapDup := if copyToL then isDuplicate f dirL else false
    let arcDup := if copyToA then isDuplicate f dirA else false
    if lapDup && arcDup then
      let (c, s, es) := execLoop lp ap copyToL copyToA rest dirL dirA
      (c, s + 1, es)
    else
      let doL := copyToL && !lapDup
      let doA := copyToA && !arcDup
      let effs := (if doL then [Effect.copyEff f.name lp] else []) ++
        (if doA then [Effect.copyEff f.name ap] else [])
      let dirL2 := if doL then dirL ++ [(f.name, f.stat)] else dirL
      let dirA2 := if doA then dirA ++ [(f.name, f.stat)] else dirA
      let (c, s, es) := execLoop lp ap copyToL copyToA rest dirL2 dirA2
      ((if doL || doA then c + 1 else c), s, effs ++ es)

/-- Embedding of `ingest_shoot` (actions.py) from the point where the
batch has been enumerated and dated: resolution/validation, presence
flags, pre-copy skip check, copy-strategy, safety check against the
configured roots, directory creation, and the copy loop. The outcome is
paired with the list of filesystem mutations in order. -/
def ingestShoot (env : Env) (files : List MFile) (nameArg : List Char)
    (auto force : Bool) : Outcome × List Effect :=
  match files with
  | [] => (Outcome.skippedRun, [])
  | f0 :: rest =>
    let minD := minDateOf f0 rest
    let maxD := maxDateOf f0 rest
    match resolveTarget env.shoots minD maxD nameArg auto force with
    | none => (Outcome.abortedRun, [])
    | some target =>
      let info := lookupShoot target env.shoots
      let inLap := match info with | some i => i.inLaptop | none => false
      let inArc := match info with | some i => i.inArchive | none => false
      let laptopPath := resolvePath env.laptopRoot target
      let archivePath := resolvePath (archiveRawRoot env) target
      let dirL := env.dirAt laptopPath
      let dirA := env.dirAt archivePath
      if preCheckSkip inLap inArc dirL dirA (f0 :: rest) then
        (Outcome.skippedRun, [])
      else
        let copyToL := true
        let copyToA := !(inArc && !inLap)
        if !(List.isPrefixOf env.laptopRoot laptopPath &&
            List.isPrefixOf (archiveRawRoot env) archivePath) then
          (Outcome.abortedRun, [])
        else
          let mkL := if dirL.isNone then [Effect.mkdirEff laptopPath] else []
          let mkA := if copyToA && dirA.isNone then [Effect.mkdirEff archivePath] else []
          let (copied, skipped, copyEffs) :=
            execLoop laptopPath archivePath copyToL copyToA (f0 :: rest)
              (dirL.getD []) (dirA.getD [])
          (Outcome.completedRun copied skipped 0, mkL ++ mkA ++ copyEffs)

/-- Embedding of the gap test in `cluster_files_by_date` (utils_date.py):
`(file_date - last_date).total_seconds() / 3600 >= gap_hours`, with dates
as timestamps in seconds and the division carried out exactly over ℚ
(the float division of the source; exactness does not affect the partition
shape proved below). -/
def gapSplitB (last cur gapHours : Int) : Bool :=
  decide (((cur - last : Int) : ℚ) / 3600 ≥ (gapHours : ℚ))

/-- Loop body of `cluster_files_by_date`: `cur` is `current_cluster`,
`last` is `last_date`, `acc` the clusters emitted so far; the final
`if` mirrors the trailing `if current_cluster`. -/
def clusterLoop {α : Type} (gapHours : Int) :
    List (α × Int) → List α → Int → List (List α) → List (List α)
  | [], cur, _, acc => if cur.isEmpty then acc else acc ++ [cur]
  | (f, d) :: rest, cur, last, acc =>
    if gapSplitB last d gapHours then
      clusterLoop gapHours rest [f] d (acc ++ [cur])
    else
      clusterLoop gapHours rest (cur ++ [f]) d acc

/-- Stable sort by date, modelling `sorted(files_with_dates, key=lambda x:
x[1])`. -/
def sortByDate {α : Type} (files : List (α × Int)) : List (α × Int) :=
  files.mergeSort (fun x y => decide (x.2 ≤ y.2))

/-- Embedding of `cluster_files_by_date` (utils_date.py): sort by date,
then split whenever the gap to the previous file reaches the threshold. -/
def clusterFilesByDate {α : Type} (files : List (α × Int)) (gapHours : Int) :
    List (List α) :=
  match sortByDate files with
  | [] => []
  | (f, d) :: rest => clusterLoop gapHours rest [f] d []

/-- A concrete one-file batch used by several witnesses below. -/
def fileA : MFile := ⟨"A.mp4".toList, some 5, ⟨2025, 1, 1⟩⟩

/-- Shoot name used by the concrete skip scenario. -/
def shootNameJan : List Char := "2025-01-01_X".toList

/-- Concrete environment: the shoot exists in both locations, the staging
shoot folder already holds the whole batch, and the archive shoot folder
exists but is empty (the batch is missing from the archive). -/
def envBothSkip : Env :=
  { laptopRoot := ["lap".toList]
    archiveRoot := ["arc".toList]
    shoots := [(shootNameJan, ⟨(⟨2025, 1, 1⟩, ⟨2025, 1, 1⟩), true, true⟩)]
    dirAt := fun p =>
      if p = ["lap".toList, shootNameJan] then some [("A.mp4".toList, some 5)]
      else if p = ["arc".toList, "Video".toList, "RAW".toList, shootNameJan] then some []
      else none }

/-- Concrete environment: no shoots exist, both roots exist and are
empty. -/
def envEmptyRoots : Env :=
  { laptopRoot := ["lap".toList]
    archiveRoot := ["arc".toList]
    shoots := []
    dirAt := fun p =>
      if p = ["lap".toList] then some []
      else if p = ["arc".toList, "Video".toList, "RAW".toList] then some []
      else none }

example : parseShootDateRange ("2025-09-14_to_2025-09-16_Ingest".toList) =
    some (⟨2025, 9, 14⟩, ⟨2025, 9, 16⟩) := by decide

example : parseShootDateRange ("2025-01-15_to_2025-02-30_X".toList) =
    some (⟨2025, 1, 15⟩, ⟨2025, 1, 15⟩) := by decide

example : parseShootDateRange ("2025-09-16_to_2025-09-14_X".toList) =
    some (⟨2025, 9, 16⟩, ⟨2025, 9, 14⟩) := by decide

example : parseShootDateRange ("holiday photos".toList) = none := by decide

example : parseShootDateRange ("2025-02-30_to_2025-03-01_X".toList) = none := by decide

example : formatShootName ⟨2025, 9, 14⟩ ⟨2025, 9, 16⟩ ("Ingest".toList) =
    "2025-09-14_to_2025-09-16_Ingest".toList := by decide

example : formatShootName ⟨2025, 1, 1⟩ ⟨2025, 1, 1⟩ ("to_2025-01-02_X".toList) =
    "2025-01-01_to_2025-01-02_X".toList := by decide

example : parseShootDateRange ("2025-01-01_X\n".toList) = some (⟨2025, 1, 1⟩, ⟨2025, 1, 1⟩) := by decide

example : parseShootDateRange ("2025-01-01_".toList) = none := by decide

example : ingestShoot envBothSkip [fileA] shootNameJan false false =
    (Outcome.skippedRun, []) := by decide

example : (ingestShoot envEmptyRoots [fileA] (".".toList) false true).2 ≠ [] := by decide

example : resolvePath ["lap".toList] (".".toList) = ["lap".toList] := by decide

example : ingestShoot envEmptyRoots [fileA] ("..".toList) false true =
    (Outcome.abortedRun, []) := by decide

example : ingestShoot envEmptyRoots [⟨"A.mp4".toList, some 5, ⟨2025, 2, 1⟩⟩]
    ("2025-01-01_Test".toList) false false = (Outcome.abortedRun, []) := by decide

example : ingestShoot envEmptyRoots [fileA] [] true false =
    (Outcome.completedRun 1 0 0,
      [Effect.mkdirEff ["lap".toList, "2025-01-01_Ingest".toList],
       Effect.mkdirEff ["arc".toList, "Video".toList, "RAW".toList, "2025-01-01_Ingest".toList],
       Effect.copyEff ("A.mp4".toList) ["lap".toList, "2025-01-01_Ingest".toList],
       Effect.copyEff ("A.mp4".toList) ["arc".toList, "Video".toList, "RAW".toList, "2025-01-01_Ingest".toList]]) := by decide

theorem dVal_dChar (k : Nat) (hk : k < 10) : dVal (dChar k) = k := by
  interval_cases k <;> rfl

theorem isDigit_dChar (k : Nat) (hk : k < 10) : (dChar k).isDigit = true := by
  interval_cases k <;> rfl

theorem dChar_mod_isDigit (n : Nat) : (dChar (n % 10)).isDigit = true :=
  isDigit_dChar _ (Nat.mod_lt _ (by decide))

theorem dateShape_iso (dt : PDate) : dateShape (dateToIso dt) = true := by
  simp [dateShape, dateToIso, dChar_mod_isDigit]

theorem daysInMonth_le (y m : Nat) : daysInMonth y m ≤ 31 := by
  unfold daysInMonth
  split
  · split <;> omega
  · split <;> omega

theorem parseDate10_iso (dt : PDate) (h : isValidDate dt.y dt.m dt.d = true) :
    parseDate10 (dateToIso dt) = some dt := by
  obtain ⟨y, m, d⟩ := dt
  have hb := h
  simp only [isValidDate, Bool.and_eq_true, decide_eq_true_eq] at h
  have hd31 : d ≤ 31 := le_trans h.2 (daysInMonth_le y m)
  have hy : y < 10000 := by omega
  have hm : m < 100 := by omega
  have hd : d < 100 := by omega
  have e1 : dVal (dChar (y / 1000 % 10)) = y / 1000 % 10 :=
    dVal_dChar _ (Nat.mod_lt _ (by decide))
  have e2 : dVal (dChar (y / 100 % 10)) = y / 100 % 10 :=
    dVal_dChar _ (Nat.mod_lt _ (by decide))
  have e3 : dVal (dChar (y / 10 % 10)) = y / 10 % 10 :=
    dVal_dChar _ (Nat.mod_lt _ (by decide))
  have e4 : dVal (dChar (y % 10)) = y % 10 :=
    dVal_dChar _ (Nat.mod_lt _ (by decide))
  have e5 : dVal (dChar (m / 10 % 10)) = m / 10 % 10 :=
    dVal_dChar _ (Nat.mod_lt _ (by decide))
  have e6 : dVal (dChar (m % 10)) = m % 10 :=
    dVal_dChar _ (Nat.mod_lt _ (by decide))
  have e7 : dVal (dChar (d / 10 % 10)) = d / 10 % 10 :=
    dVal_dChar _ (Nat.mod_lt _ (by decide))
  have e8 : dVal (dChar (d % 10)) = d % 10 :=
    dVal_dChar _ (Nat.mod_lt _ (by decide))
  unfold parseDate10
  rw [dateShape_iso]
  simp only [if_true, dateToIso]
  rw [e1, e2, e3, e4, e5, e6, e7, e8]
  have hyy : 1000 * (y / 1000 % 10) + 100 * (y / 100 % 10) + 10 * (y / 10 % 10) + y % 10 = y := by
    omega
  have hmm : 10 * (m / 10 % 10) + m % 10 = m := by omega
  have hdd : 10 * (d / 10 % 10) + d % 10 = d := by omega
  rw [hyy, hmm, hdd, hb]
  rfl

theorem iso_append_take10 (dt : PDate) (r : List Char) :
    (dateToIso dt ++ r).take 10 = dateToIso dt := rfl

theorem iso_append_drop10 (dt : PDate) (r : List Char) :
    (dateToIso dt ++ r).drop 10 = r := rfl

theorem labelTail_of_noNl (l : List Char) (h : ∀ c ∈ l, c ≠ '\n') :
    labelTail l = true := by
  induction l with
  | nil => rfl
  | cons c rest ih =>
    have hc : c ≠ '\n' := h c (by simp)
    simp only [labelTail, if_neg hc]
    exact ih (fun x hx => h x (by simp [hx]))

theorem labelOk_of_noNl (l : List Char) (hne : l ≠ []) (h : ∀ c ∈ l, c ≠ '\n') :
    labelOk l = true := by
  cases l with
  | nil => exact absurd rfl hne
  | cons c rest =>
    have hc : c ≠ '\n' := h c (by simp)
    simp only [labelOk, hc, decide_False, Bool.not_false, Bool.true_and]
    exact labelTail_of_noNl rest (fun x hx => h x (by simp [hx]))

theorem singleShape_format (st : PDate) (lbl : List Char) (hne : lbl ≠ [])
    (hnl : ∀ c ∈ lbl, c ≠ '\n') :
    singleShape (dateToIso st ++ '_' :: lbl) = true := by
  unfold singleShape
  have h1 : (dateToIso st ++ '_' :: lbl).take 10 = dateToIso st := rfl
  have h2 : ((dateToIso st ++ '_' :: lbl).drop 10).take 1 = ['_'] := rfl
  have h3 : (dateToIso st ++ '_' :: lbl).drop 11 = lbl := rfl
  rw [h1, h2, h3, dateShape_iso, labelOk_of_noNl lbl hne hnl]
  rfl

theorem rangeShape_format_single (st : PDate) (lbl : List Char)
    (hto : List.isPrefixOf ("to_".toList) lbl = false) :
    rangeShape (dateToIso st ++ '_' :: lbl) = false := by
  unfold rangeShape
  have h2 : (dateToIso st ++ '_' :: lbl).drop 10 = '_' :: lbl := rfl
  rw [h2]
  have hne3 : lbl.take 3 ≠ ['t', 'o', '_'] := by
    intro h5
    have h6 : List.isPrefixOf ("to_".toList) lbl = true := by
      rw [ List.isPrefixOf_iff_prefix]
      have h7 := List.take_prefix 3 lbl
      rw [h5] at h7
      exact h7
    rw [h6] at hto
    cases hto
  simp [hne3]

/-- C2 (amended): the round-trip `Parse(Format(start, end, label)) = (start,
end)` holds for valid dates with four-digit years (where `strftime`
output is platform-independent) and labels that are non-empty, contain no
newline, and do not begin with `to_`; the counterexample theorem shows the
label restriction is necessary. -/
theorem format_parse_roundtrip (st en : PDate) (lbl : List Char)
    (hvs : isValidDate st.y st.m st.d = true)
    (hve : isValidDate en.y en.m en.d = true)
    (hy4s : 1000 ≤ st.y) (hy4e : 1000 ≤ en.y)
    (hord : dateLeb st en = true)
    (hne : lbl ≠ []) (hnl : ∀ c ∈ lbl, c ≠ '\n')
    (hto : List.isPrefixOf ("to_".toList) lbl = false) :
    parseShootDateRange (formatShootName st en lbl) = some (st, en) := by
  by_cases heq : st = en
  · subst heq
    unfold formatShootName
    rw [if_pos rfl]
    unfold parseShootDateRange
    rw [rangeShape_format_single st lbl hto]
    simp only [Bool.false_eq_true, if_false]
    unfold trySingle
    rw [singleShape_format st lbl hne hnl]
    simp only [if_true]
    rw [iso_append_take10, parseDate10_iso st hvs]
  · unfold formatShootName
    rw [if_neg heq]
    have h1 : (dateToIso st ++ '_' :: 't' :: 'o' :: '_' ::
        (dateToIso en ++ '_' :: lbl)).take 10 = dateToIso st := rfl
    have h2 : ((dateToIso st ++ '_' :: 't' :: 'o' :: '_' ::
        (dateToIso en ++ '_' :: lbl)).drop 10).take 4 = ['_', 't', 'o', '_'] := rfl
    have h3 : ((dateToIso st ++ '_' :: 't' :: 'o' :: '_' ::
        (dateToIso en ++ '_' :: lbl)).drop 14).take 10 = dateToIso en := rfl
    have h4 : ((dateToIso st ++ '_' :: 't' :: 'o' :: '_' ::
        (dateToIso en ++ '_' :: lbl)).drop 24).take 1 = ['_'] := rfl
    have h5 : (dateToIso st ++ '_' :: 't' :: 'o' :: '_' ::
        (dateToIso en ++ '_' :: lbl)).drop 25 = lbl := rfl
    have hr : rangeShape (dateToIso st ++ '_' :: 't' :: 'o' :: '_' ::
        (dateToIso en ++ '_' :: lbl)) = true := by
      unfold rangeShape
      rw [h1, h2, h3, h4, h5, dateShape_iso, dateShape_iso,
        labelOk_of_noNl lbl hne hnl]
      rfl
    unfold parseShootDateRange
    rw [hr]
    simp only [if_true]
    rw [h1, h3, parseDate10_iso st hvs, parseDate10_iso en hve]

theorem format_parse_roundtrip_witness :
    parseShootDateRange (formatShootName ⟨2025, 9, 14⟩ ⟨2025, 9, 16⟩ ("Ingest".toList)) =
      some (⟨2025, 9, 14⟩, ⟨2025, 9, 16⟩) :=
  format_parse_roundtrip ⟨2025, 9, 14⟩ ⟨2025, 9, 16⟩ ("Ingest".toList)
    (by decide) (by decide) (by decide) (by decide) (by decide) (by decide)
    (by decide) (by decide)

/-- C2 (counterexample): a label starting with `to_` followed by a valid
date breaks the round-trip for the single-date form: formatting
2025-01-01 with label `to_2025-01-02_X` produces a name that parses as a
range, not as `(d, d)`. -/
theorem format_parse_roundtrip_cex :
    parseShootDateRange (formatShootName ⟨2025, 1, 1⟩ ⟨2025, 1, 1⟩ ("to_2025-01-02_X".toList)) =
      some (⟨2025, 1, 1⟩, ⟨2025, 1, 2⟩) ∧
    some ((⟨2025, 1, 1⟩ : PDate), (⟨2025, 1, 2⟩ : PDate)) ≠
      some ((⟨2025, 1, 1⟩ : PDate), (⟨2025, 1, 1⟩ : PDate)) := by
  decide

theorem trySingle_eq_diag (s : List Char) (a b : PDate)
    (h : trySingle s = some (a, b)) : a = b := by
  unfold trySingle at h
  by_cases hs : singleShape s = true
  · rw [if_pos hs] at h
    cases hp : parseDate10 (s.take 10) with
    | none => rw [hp] at h; cases h
    | some d =>
      rw [hp] at h
      simp only [Option.some.injEq, Prod.mk.injEq] at h
      rw [← h.1, ← h.2]
  · rw [if_neg hs] at h; cases h

/-- C4 (amended): whenever the Shoot-Name Parser returns a range
`(start, end)`, either `start = end` (the single-date interpretation) or
`(start, end)` are exactly the two dates encoded in the name, in written
order; the parser performs no `start ≤ end` check, so a range-form name
with its dates reversed yields `start > end` (see the counterexample). -/
theorem parse_range_components (s : List Char) (a b : PDate)
    (h : parseShootDateRange s = some (a, b)) :
    a = b ∨ (parseDate10 (s.take 10) = some a ∧
      parseDate10 ((s.drop 14).take 10) = some b) := by
  unfold parseShootDateRange at h
  by_cases hr : rangeShape s = true
  · rw [if_pos hr] at h
    cases hp1 : parseDate10 (s.take 10) with
    | none =>
      rw [hp1] at h
      exact Or.inl (trySingle_eq_diag s a b h)
    | some x =>
      rw [hp1] at h
      cases hp2 : parseDate10 ((s.drop 14).take 10) with
      | none =>
        rw [hp2] at h
        exact Or.inl (trySingle_eq_diag s a b h)
      | some y =>
        rw [hp2] at h
        simp only [Option.some.injEq, Prod.mk.injEq] at h
        exact Or.inr ⟨by rw [h.1], by rw [h.2]⟩
  · rw [if_neg hr] at h
    exact Or.inl (trySingle_eq_diag s a b h)

theorem parse_range_components_witness :
    (⟨2025, 9, 16⟩ : PDate) = (⟨2025, 9, 14⟩ : PDate) ∨
      (parseDate10 (("2025-09-16_to_2025-09-14_X".toList).take 10) = some ⟨2025, 9, 16⟩ ∧
       parseDate10 ((("2025-09-16_to_2025-09-14_X".toList).drop 14).take 10) = some ⟨2025, 9, 14⟩) :=
  parse_range_components ("2025-09-16_to_2025-09-14_X".toList)
    ⟨2025, 9, 16⟩ ⟨2025, 9, 14⟩ (by decide)

/-- C4 (counterexample): the parser returns a range with `start > end` for
a range-form name whose encoded dates are reversed, violating the claimed
`start ≤ end` invariant. -/
theorem parse_range_order_cex :
    parseShootDateRange ("2025-09-16_to_2025-09-14_X".toList) =
      some (⟨2025, 9, 16⟩, ⟨2025, 9, 14⟩) ∧
    dateLeb ⟨2025, 9, 16⟩ ⟨2025, 9, 14⟩ = false := by decide

/-- C5 (amended): the parser returns "no date range" exactly when neither
the range interpretation (range shape with both dates calendar-valid) nor
the single-date interpretation (single shape with a calendar-valid
leading date) succeeds. In particular a range-form name whose FIRST date
is invalid yields `none`, but one whose second date alone is invalid
falls back to the single-date interpretation (see the counterexample). -/
theorem parse_none_characterization (s : List Char) :
    parseShootDateRange s = none ↔
      ¬(rangeShape s = true ∧ (parseDate10 (s.take 10)).isSome = true ∧
          (parseDate10 ((s.drop 14).take 10)).isSome = true) ∧
      ¬(singleShape s = true ∧ (parseDate10 (s.take 10)).isSome = true) := by
  unfold parseShootDateRange trySingle
  by_cases hr : rangeShape s = true
  · cases h1 : parseDate10 (s.take 10) with
    | none =>
      by_cases hs : singleShape s = true
      · simp [hr, h1, hs]
      · simp [hr, h1, hs]
    | some a =>
      cases h2 : parseDate10 ((s.drop 14).take 10) with
      | none =>
        by_cases hs : singleShape s = true
        · simp [hr, h1, h2, hs]
        · simp [hr, h1, h2, hs]
      | some b => simp [hr, h1, h2]
  · by_cases hs : singleShape s = true
    · cases h1 : parseDate10 (s.take 10) with
      | none => simp [hr, h1, hs]
      | some a => simp [hr, h1, hs]
    · simp [hr, hs]

/-- C5 (counterexample): a range-form name whose second date (Feb 30) is
not a valid calendar date does not yield "no date range": the parser
falls back to the single-date pattern and returns `(start, start)`. -/
theorem parse_invalid_end_date_cex :
    rangeShape ("2025-01-15_to_2025-02-30_X".toList) = true ∧
    parseShootDateRange ("2025-01-15_to_2025-02-30_X".toList) =
      some (⟨2025, 1, 15⟩, ⟨2025, 1, 15⟩) := by decide

theorem findMatchingShoot_eq_find (r : PDate × PDate)
    (shoots : List (List Char × ShootInfo)) :
    findMatchingShoot r shoots =
      (shoots.find? (fun p => dateLeb p.2.range.1 r.1 && dateLeb r.2 p.2.range.2)).map
        Prod.fst := by
  induction shoots with
  | nil => rfl
  | cons p rest ih =>
    obtain ⟨n, info⟩ := p
    cases hc : (dateLeb info.range.1 r.1 && dateLeb r.2 info.range.2) with
    | true =>
      rw [@List.find?_cons_of_pos _
        (fun p => dateLeb p.2.range.1 r.1 && dateLeb r.2 p.2.range.2) (n, info) rest hc]
      simp [findMatchingShoot, hc]
    | false =>
      rw [@List.find?_cons_of_neg _
        (fun p => dateLeb p.2.range.1 r.1 && dateLeb r.2 p.2.range.2) (n, info) rest
        (by simp [hc])]
      simp only [findMatchingShoot, hc, if_false]
      exact ih

/-- C3 (confirmed): automatic-mode resolution returns the name of the
FIRST existing ShootRecord (in iteration order) whose date range contains
both the batch minimum and maximum dates, and, when the range of no record
contains the batch range, the name formatted from the batch min/max
range with the fixed default label `"Ingest"`; in particular a batch
spanning 2025-09-14..2025-09-16 with no existing shoots yields
`2025-09-14_to_2025-09-16_Ingest`. -/
theorem auto_mode_resolution (minD maxD : PDate)
    (shoots : List (List Char × ShootInfo)) :
    (resolveAutoName minD maxD shoots =
      match shoots.find? (fun p => dateLeb p.2.range.1 minD && dateLeb maxD p.2.range.2) with
      | some p => p.1
      | none => formatShootName minD maxD ("Ingest".toList)) ∧
    resolveAutoName ⟨2025, 9, 14⟩ ⟨2025, 9, 16⟩ [] =
      "2025-09-14_to_2025-09-16_Ingest".toList := by
  refine ⟨?_, by decide⟩
  unfold resolveAutoName
  rw [findMatchingShoot_eq_find]
  cases shoots.find? (fun p => dateLeb p.2.range.1 minD && dateLeb maxD p.2.range.2) with
  | none => rfl
  | some p => rfl

/-- C6 (confirmed): the Pattern Matcher decides the concrete cases of the spec
as given: the range token `C3317-C3351` accepts `C3320.mp4` and rejects
`C3400.mp4`; the bare numeric token `7` accepts `007.MP4` (numeric
equality absorbs zero-padding); and the letters-only token `XYZ` accepts
`abc_xyz_001.mov` through the case-insensitive substring fallback. -/
theorem pattern_matcher_cases :
    matchesPattern ("C3317-C3351".toList) ("C3320.mp4".toList) = true ∧
    matchesPattern ("C3317-C3351".toList) ("C3400.mp4".toList) = false ∧
    matchesPattern ("7".toList) ("007.MP4".toList) = true ∧
    matchesPattern ("XYZ".toList) ("abc_xyz_001.mov".toList) = true := by
  decide

/-- C7 (confirmed): the Duplicate Detector returns true exactly when an
entry of the identical name exists directly inside the destination
directory, both `stat` calls succeed, and the sizes are equal; whenever
statting either side fails (modelled as `none`), it returns false (fails
open toward copying), and being a total function it never raises. -/
theorem duplicate_detector_name_size (f : MFile) (dest : DirC) :
    (isDuplicate f dest = true ↔
      ∃ sz, lookupEntry f.name dest = some (some sz) ∧ f.stat = some sz) ∧
    (f.stat = none → isDuplicate f dest = false) ∧
    (lookupEntry f.name dest = some none → isDuplicate f dest = false) := by
  have key : isDuplicate f dest = true ↔
      ∃ sz, lookupEntry f.name dest = some (some sz) ∧ f.stat = some sz := by
    unfold isDuplicate
    cases hl : lookupEntry f.name dest with
    | none => simp
    | some st =>
      cases st with
      | none => cases f.stat <;> simp
      | some b =>
        cases hf : f.stat with
        | none => simp
        | some a => simp [eq_comm]
  refine ⟨key, ?_, ?_⟩
  · intro hn
    cases hd : isDuplicate f dest with
    | false => rfl
    | true =>
      obtain ⟨sz, _, hst⟩ := key.mp hd
      rw [hn] at hst
      cases hst
  · intro hl
    cases hd : isDuplicate f dest with
    | false => rfl
    | true =>
      obtain ⟨sz, hl2, _⟩ := key.mp hd
      rw [hl] at hl2
      cases hl2

theorem clusterLoop_flatten {α : Type} (gapHours : Int) (pending : List (α × Int))
    (cur : List α) (last : Int) (acc : List (List α)) :
    (clusterLoop gapHours pending cur last acc).flatten =
      acc.flatten ++ cur ++ pending.map Prod.fst := by
  induction pending generalizing cur last acc with
  | nil =>
    by_cases hc : cur.isEmpty
    · have : cur = [] := by simpa [List.isEmpty_iff] using hc
      simp [clusterLoop, hc, this]
    · simp [clusterLoop, hc]
  | cons p rest ih =>
    obtain ⟨f, d⟩ := p
    rw [show clusterLoop gapHours ((f, d) :: rest) cur last acc =
        if gapSplitB last d gapHours then clusterLoop gapHours rest [f] d (acc ++ [cur])
        else clusterLoop gapHours rest (cur ++ [f]) d acc from rfl]
    by_cases hg : gapSplitB last d gapHours = true
    · rw [if_pos hg, ih]
      simp
    · rw [if_neg hg, ih]
      simp

theorem clusterLoop_ne_nil {α : Type} (gapHours : Int) (pending : List (α × Int))
    (cur : List α) (last : Int) (acc : List (List α))
    (hacc : ∀ c ∈ acc, c ≠ []) (hcur : cur ≠ []) :
    ∀ c ∈ clusterLoop gapHours pending cur last acc, c ≠ [] := by
  induction pending generalizing cur last acc with
  | nil =>
    intro c hc
    have hne : cur.isEmpty = false := by simpa [List.isEmpty_iff] using hcur
    simp only [clusterLoop, hne, Bool.false_eq_true, if_false] at hc
    rcases List.mem_append.mp hc with h | h
    · exact hacc c h
    · simp only [List.mem_singleton] at h
      rw [h]; exact hcur
  | cons p rest ih =>
    obtain ⟨f, d⟩ := p
    intro c hc
    by_cases hg : gapSplitB last d gapHours = true
    · simp only [clusterLoop, hg, if_true] at hc
      refine ih [f] d (acc ++ [cur]) ?_ (by simp) c hc
      intro x hx
      rcases List.mem_append.mp hx with h | h
      · exact hacc x h
      · simp only [List.mem_singleton] at h
        rw [h]; exact hcur
    · simp only [clusterLoop, hg, if_false] at hc
      refine ih (cur ++ [f]) d acc hacc (by simp) c hc

/-- C10 (confirmed): `cluster_files_by_date` partitions its input: the
concatenation of the clusters, in order, is exactly the input sorted by
date (hence a permutation of the input files, so every input file lands
in exactly one cluster counting multiplicity), no cluster is empty, and
the empty input yields no clusters. -/
theorem cluster_partition {α : Type} (files : List (α × Int)) (gapHours : Int) :
    (clusterFilesByDate files gapHours).flatten = (sortByDate files).map Prod.fst ∧
    ((clusterFilesByDate files gapHours).flatten).Perm (files.map Prod.fst) ∧
    (∀ c ∈ clusterFilesByDate files gapHours, c ≠ []) ∧
    clusterFilesByDate ([] : List (α × Int)) gapHours = [] := by
  have hperm : (sortByDate files).Perm files := List.mergeSort_perm files _
  have hflat : (clusterFilesByDate files gapHours).flatten =
      (sortByDate files).map Prod.fst := by
    unfold clusterFilesByDate
    cases hs : sortByDate files with
    | nil => simp
    | cons p rest =>
      obtain ⟨f, d⟩ := p
      rw [clusterLoop_flatten]
      simp
  refine ⟨hflat, ?_, ?_, ?_⟩
  · rw [hflat]
    exact hperm.map Prod.fst
  · unfold clusterFilesByDate
    cases hs : sortByDate files with
    | nil => simp
    | cons p rest =>
      obtain ⟨f, d⟩ := p
      exact clusterLoop_ne_nil gapHours rest [f] d [] (by simp) (by simp)
  · unfold clusterFilesByDate
    have : sortByDate ([] : List (α × Int)) = [] := by
      have h0 : (sortByDate ([] : List (α × Int))).Perm [] := List.mergeSort_perm [] _
      exact h0.eq_nil
    rw [this]

theorem resolveTarget_manual_none (shoots : List (List Char × ShootInfo))
    (minD maxD : PDate) (nameArg : List Char)
    (hcase : (∃ info, lookupShoot nameArg shoots = some info ∧
        (dateLeb info.range.1 minD && dateLeb maxD info.range.2) = false) ∨
      (lookupShoot nameArg shoots = none ∧
        ∃ s e, parseShootDateRange nameArg = some (s, e) ∧
          (dateLeb s minD && dateLeb maxD e) = false) ∨
      (lookupShoot nameArg shoots = none ∧ parseShootDateRange nameArg = none)) :
    resolveTarget shoots minD maxD nameArg false false = none := by
  unfold resolveTarget
  by_cases hne : nameArg.isEmpty = true
  · simp [hne]
  · simp only [Bool.false_eq_true, if_false, hne]
    rcases hcase with ⟨info, hl, hb⟩ | ⟨hl, s, e, hp, hb⟩ | ⟨hl, hp⟩
    · rw [hl]
      simp [hb]
    · rw [hl, hp]
      simp [hb]
    · rw [hl, hp]

/-- C9 (confirmed): in manual mode without the force flag, when the
date range of the supplied shoot name — from an existing ShootRecord, or
parsed from the name itself — does not contain the batch min/max
range, or the name has no date prefix at all, the ingest run aborts with
no filesystem mutation (no directory created, no file copied). -/
theorem manual_mismatch_aborts (env : Env) (f0 : MFile) (rest : List MFile)
    (nameArg : List Char)
    (hcase : (∃ info, lookupShoot nameArg env.shoots = some info ∧
        (dateLeb info.range.1 (minDateOf f0 rest) &&
          dateLeb (maxDateOf f0 rest) info.range.2) = false) ∨
      (lookupShoot nameArg env.shoots = none ∧
        ∃ s e, parseShootDateRange nameArg = some (s, e) ∧
          (dateLeb s (minDateOf f0 rest) && dateLeb (maxDateOf f0 rest) e) = false) ∨
      (lookupShoot nameArg env.shoots = none ∧ parseShootDateRange nameArg = none)) :
    ingestShoot env (f0 :: rest) nameArg false false = (Outcome.abortedRun, []) := by
  have hres := resolveTarget_manual_none env.shoots (minDateOf f0 rest)
    (maxDateOf f0 rest) nameArg hcase
  simp only [ingestShoot]
  rw [hres]

theorem manual_mismatch_aborts_witness :
    ingestShoot envEmptyRoots
      [⟨"A.mp4".toList, some 5, ⟨2025, 2, 1⟩⟩, ⟨"B.mp4".toList, some 6, ⟨2025, 2, 2⟩⟩]
      ("2025-01-01_Test".toList) false false = (Outcome.abortedRun, []) :=
  manual_mismatch_aborts envEmptyRoots ⟨"A.mp4".toList, some 5, ⟨2025, 2, 1⟩⟩
    [⟨"B.mp4".toList, some 6, ⟨2025, 2, 2⟩⟩] ("2025-01-01_Test".toList)
    (Or.inr (Or.inl ⟨by decide, ⟨2025, 1, 1⟩, ⟨2025, 1, 1⟩, by decide, by decide⟩))

theorem preCheckSkip_iff (inLap inArc : Bool) (dirL dirA : Option DirC)
    (f0 : MFile) (rest : List MFile) :
    preCheckSkip inLap inArc dirL dirA (f0 :: rest) = true ↔
      (inLap = true ∧ ∃ d, dirL = some d ∧
        ∀ f ∈ f0 :: rest, isDuplicate f d = true) := by
  cases inLap with
  | false =>
    simp only [preCheckSkip]
    cases inArc with
    | false => simp
    | true => simp
  | true =>
    simp only [preCheckSkip]
    cases dirL with
    | none => simp [dupCount]
    | some d =>
      simp only [dupCount, Bool.true_or, if_true, Bool.true_and, Bool.or_eq_true,
        Bool.and_eq_true, decide_eq_true_eq, Option.some.injEq, true_and]
      constructor
      · intro h
        have hcnt : List.countP (fun f => isDuplicate f d) (f0 :: rest) =
            (f0 :: rest).length := by
          rcases h with ⟨⟨hA, hp⟩, hq⟩ | hp
          · exact hp
          · exact hp
        exact ⟨d, rfl, List.countP_eq_length.mp hcnt⟩
      · rintro ⟨d2, hd2, hall⟩
        right
        rw [hd2]
        exact List.countP_eq_length.mpr hall

/-- C1 (amended): given a resolved target shoot name, the run terminates
`SKIPPED` (copying nothing anywhere) exactly when the shoot is present in
staging, the staging shoot directory exists, and every batch file is
already a duplicate there — full satisfaction of both destinations is a
special case. In particular, when every batch file already exists in
staging but some are missing from the archive (shoot present in both),
the run skips entirely and copies nothing to the archive (see the
counterexample). -/
theorem staging_full_skips (env : Env) (f0 : MFile) (rest : List MFile)
    (nameArg : List Char) (auto force : Bool) (target : List Char)
    (hres : resolveTarget env.shoots (minDateOf f0 rest) (maxDateOf f0 rest)
      nameArg auto force = some target) :
    ingestShoot env (f0 :: rest) nameArg auto force = (Outcome.skippedRun, []) ↔
      ((match lookupShoot target env.shoots with
        | some i => i.inLaptop
        | none => false) = true ∧
       ∃ d, env.dirAt (resolvePath env.laptopRoot target) = some d ∧
         ∀ f ∈ f0 :: rest, isDuplicate f d = true) := by
  simp only [ingestShoot, hres]
  by_cases hskip : preCheckSkip
      (match lookupShoot target env.shoots with
       | some i => i.inLaptop
       | none => false)
      (match lookupShoot target env.shoots with
       | some i => i.inArchive
       | none => false)
      (env.dirAt (resolvePath env.laptopRoot target))
      (env.dirAt (resolvePath (archiveRawRoot env) target)) (f0 :: rest) = true
  · rw [if_pos hskip]
    have hrhs := (preCheckSkip_iff
      (match lookupShoot target env.shoots with
       | some i => i.inLaptop
       | none => false)
      (match lookupShoot target env.shoots with
       | some i => i.inArchive
       | none => false)
      (env.dirAt (resolvePath env.laptopRoot target))
      (env.dirAt (resolvePath (archiveRawRoot env) target)) f0 rest).mp hskip
    exact iff_of_true rfl hrhs
  · rw [if_neg hskip]
    constructor
    · intro hEq
      exfalso
      split at hEq
      · simp at hEq
      · simp at hEq
    · intro hr
      exact absurd ((preCheckSkip_iff
        (match lookupShoot target env.shoots with
         | some i => i.inLaptop
         | none => false)
        (match lookupShoot target env.shoots with
         | some i => i.inArchive
         | none => false)
        (env.dirAt (resolvePath env.laptopRoot target))
        (env.dirAt (resolvePath (archiveRawRoot env) target)) f0 rest).mpr hr) hskip

theorem staging_full_skips_witness :
    ingestShoot envBothSkip [fileA] shootNameJan false false =
      (Outcome.skippedRun, []) :=
  (staging_full_skips envBothSkip fileA [] shootNameJan false false shootNameJan
    (by decide)).mpr
    ⟨by decide, [("A.mp4".toList, some 5)], by decide, by decide⟩

/-- C1 (counterexample): a one-file batch whose file already exists in the
staging shoot folder but not in the archive shoot folder (shoot present
in both locations): the claim says the run must still copy the missing
file to the archive, but the run terminates `SKIPPED` with no filesystem
mutation at all; the second conjunct shows the archive was indeed not
fully satisfied. -/
theorem staging_full_archive_partial_cex :
    ingestShoot envBothSkip [fileA] shootNameJan false false =
      (Outcome.skippedRun, []) ∧
    dupCount [fileA]
      (envBothSkip.dirAt (resolvePath (archiveRawRoot envBothSkip) shootNameJan)) ≠
      [fileA].length := by
  decide

/-- C8 (amended): any run whose resolved destination paths are not
descendants-or-equal of their configured roots terminates with no
filesystem mutation (ABORTED at the safety check, or SKIPPED if the
pre-copy check fires first); equivalently, every run that performs any
mutation passed the descendant check. The check accepts equality with the
root, so "proper descendant" does not hold (see the counterexample). -/
theorem path_escape_no_mutation (env : Env) (f0 : MFile) (rest : List MFile)
    (nameArg : List Char) (auto force : Bool) (target : List Char)
    (hres : resolveTarget env.shoots (minDateOf f0 rest) (maxDateOf f0 rest)
      nameArg auto force = some target)
    (hesc : (List.isPrefixOf env.laptopRoot (resolvePath env.laptopRoot target) &&
      List.isPrefixOf (archiveRawRoot env)
        (resolvePath (archiveRawRoot env) target)) = false) :
    (ingestShoot env (f0 :: rest) nameArg auto force).2 = [] ∧
    ((ingestShoot env (f0 :: rest) nameArg auto force).1 = Outcome.abortedRun ∨
     (ingestShoot env (f0 :: rest) nameArg auto force).1 = Outcome.skippedRun) := by
  simp only [ingestShoot]
  rw [hres]
  by_cases hskip : preCheckSkip
      (match lookupShoot target env.shoots with | some i => i.inLaptop | none => false)
      (match lookupShoot target env.shoots with | some i => i.inArchive | none => false)
      (env.dirAt (resolvePath env.laptopRoot target))
      (env.dirAt (resolvePath (archiveRawRoot env) target)) (f0 :: rest) = true
  · simp [hskip]
  · simp [hskip, hesc]

theorem path_escape_no_mutation_witness :
    (ingestShoot envEmptyRoots [fileA] ("..".toList) false true).2 = [] ∧
    ((ingestShoot envEmptyRoots [fileA] ("..".toList) false true).1 = Outcome.abortedRun ∨
     (ingestShoot envEmptyRoots [fileA] ("..".toList) false true).1 = Outcome.skippedRun) :=
  path_escape_no_mutation envEmptyRoots fileA [] ("..".toList) false true
    ("..".toList) (by decide) (by decide)

/-- C8 (counterexample): with the shoot name `.` (reachable in manual mode
with the force flag), both resolved destination paths equal their roots —
they are not PROPER descendants — yet the safety check passes and the run
proceeds to mutate the filesystem (it copies the batch into the roots
themselves). -/
theorem dotNameMutatesCex :
    resolvePath envEmptyRoots.laptopRoot (".".toList) = envEmptyRoots.laptopRoot ∧
    resolvePath (archiveRawRoot envEmptyRoots) (".".toList) = archiveRawRoot envEmptyRoots ∧
    (ingestShoot envEmptyRoots [fileA] (".".toList) false true).2 ≠ [] := by
  decide

end VFlow
